import Mathlib

/-!
# Formal model of the x-trend-digest candidate pipeline

This file embeds the core of the candidate-processing pipeline
(`scripts/normalize.py`, `scripts/memory_store.py`, `scripts/rank.py` and the
dedup stages of `scripts/run.py`) as Lean definitions, and proves/refutes the
frozen specification claims about it.

Modelling conventions:
* Python strings are Lean `String`s (processed as `List Char`); `str.lower`
  is modelled on the ASCII range (no claim exercises non-ASCII case mapping).
* Python dicts holding candidates / memory records are structures with
  `Option` fields (`none` = key absent); Python truthiness of a string field
  is `none` or `""` ↦ falsy.
* Timestamps are exact numbers: `ℤ` seconds for the memory store (ISO
  round-trips are exact), `ℚ` seconds for the scorer's parsed `createdAt`.
* Float arithmetic of the scorer is modelled over `ℝ`; `round(x, 5)` is
  modelled as exact half-even rounding at 5 decimal digits.
* Library primitives that depend on large environment data tables
  (cryptographic hashes, Unicode normalization, codecs, ip-address parsing)
  are abstracted as parameters of a `PyEnv` record; every universally
  quantified theorem holds for *all* instantiations of these parameters, in
  particular for the real ones.
* Fallible code (the `ValueError`s that `urllib.parse.urlsplit` can raise)
  returns `Option`.
-/

namespace XTrend

/-! ## Python string primitives -/

/-- ASCII lower-casing of one character (models `str.lower` on the ASCII
range; the pipeline's claims never exercise non-ASCII case mapping). -/
def pyLowerChar (c : Char) : Char :=
  if 'A' ≤ c ∧ c ≤ 'Z' then Char.ofNat (c.toNat + 32) else c

/-- Models Python `str.lower` (ASCII range). -/
def pyLower (s : String) : String := String.mk (s.data.map pyLowerChar)

/-- Characters Python `str.strip()` / `str.split()` treat as whitespace. -/
def isPySpace (c : Char) : Bool :=
  ([' ', '\t', '\n', '\r', '\x0b', '\x0c', '\x1c', '\x1d', '\x1e', '\x1f',
    '\x85', '\xa0', ' ', ' ', ' ', ' ', ' ',
    ' ', ' ', ' ', ' ', ' ', ' ', ' ',
    ' ', ' ', ' ', ' ', '　'].contains c)

/-- Models Python `str.strip()` with no arguments. -/
def pyStrip (s : String) : String :=
  String.mk (((s.data.dropWhile isPySpace).reverse.dropWhile isPySpace).reverse)

/-- Models Python `str.split()` with no arguments: split on whitespace runs,
dropping empty tokens. -/
def pySplitWs (s : String) : List String :=
  (s.data.foldr
    (fun c acc =>
      if isPySpace c then [] :: acc
      else
        match acc with
        | [] => [[c]]
        | w :: ws => (c :: w) :: ws) []).filterMap
    (fun w => if w.isEmpty then none else some (String.mk w))

/-- Models Python `str.split(sep)` for a one-character separator (keeps empty
pieces, as Python does). -/
def splitOnChar (sep : Char) (s : String) : List String :=
  (s.data.foldr
    (fun c acc =>
      if c = sep then [] :: acc
      else
        match acc with
        | [] => [[c]]
        | w :: ws => (c :: w) :: ws) [[]]).map String.mk

/-- Splits a character list at the first occurrence of `sep` (Python
`s.split(sep, 1)` when `sep` occurs); `none` when `sep` does not occur. -/
def splitOnceL (sep : Char) (l : List Char) : Option (List Char × List Char) :=
  let pre := l.takeWhile (· ≠ sep)
  if pre.length = l.length then none else some (pre, l.drop (pre.length + 1))

/-- Models the Python substring test `sub in s` on character lists. -/
def containsSubL (pat : List Char) : List Char → Bool
  | [] => pat.isEmpty
  | c :: cs => pat.isPrefixOf (c :: cs) || containsSubL pat cs

/-- Models the Python substring test `sub in s`. -/
def containsSub (s sub : String) : Bool := containsSubL sub.data s.data

/-- Replace-all worker for a nonempty pattern (Python `str.replace`): scans
left to right, skipping over each replacement.  The fuel argument keeps the
recursion structural; every step consumes at least one character, so with
`fuel ≥ l.length` the fuel-exhausted case is unreachable. -/
def pyReplaceAux (pat new : List Char) : ℕ → List Char → List Char
  | _, [] => []
  | 0, l => l
  | fuel + 1, c :: cs =>
    if pat.isPrefixOf (c :: cs) then new ++ pyReplaceAux pat new fuel ((c :: cs).drop pat.length)
    else c :: pyReplaceAux pat new fuel cs

/-- Models Python `s.replace(old, new)` (the repository never calls it with
an empty `old`, for which this model returns `s` unchanged). -/
def pyReplace (s old new : String) : String :=
  match old.data with
  | [] => s
  | o :: os => String.mk (pyReplaceAux (o :: os) new.data s.data.length s.data)

/-- Models Python `s.startswith(pre)`. -/
def pyStartsWith (s pre : String) : Bool := pre.data.isPrefixOf s.data

/-- Models Python `s.count(c)` for a single character. -/
def pyCountChar (s : String) (c : Char) : ℕ := s.data.count c

/-- String truthiness of an optional Python string field: `None` and `""`
are falsy. -/
def pyTruthy (o : Option String) : Bool :=
  match o with
  | none => false
  | some s => !(s = "")

/-- String falsiness of an optional Python string field. -/
def pyFalsy (o : Option String) : Bool := !(pyTruthy o)

/-! ## Environment primitives

Library functions whose behaviour depends on large environment data tables
are kept abstract.  Theorems quantified over a `PyEnv` hold for every
instantiation, in particular for the real primitives. -/

/-- Abstracted library primitives used by the pipeline:
* `textHash` — `normalize.text_hash`, i.e. SHA-1 (truncated to 16 hex chars)
  of the Unicode-normalized text (`hashlib` + `unicodedata`);
* `sha256hex16` — `hashlib.sha256(·).hexdigest()[:16]`, used by
  `normalize.key_for` for URL-derived keys;
* `utf8DecodeReplace` — `bytes.decode("utf-8", errors="replace")`, used by
  `urllib.parse.unquote`;
* `netlocNonAsciiFails` — whether `urllib.parse._checknetloc` raises for a
  non-ASCII netloc (NFKC normalization check; ASCII netlocs never raise and
  are short-circuited before this parameter is consulted);
* `bracketedHostFails` — whether `urllib.parse._check_bracketed_host` raises
  for a bracketed host (`ipaddress` parsing). -/
structure PyEnv where
  textHash : String → String
  sha256hex16 : String → String
  utf8DecodeReplace : List ℕ → String
  netlocNonAsciiFails : String → Bool
  bracketedHostFails : String → Bool

/-! ## urllib.parse embedding (CPython 3.11 semantics) -/

/-- Hex digit value of a character, `none` if not a hex digit. -/
def hexVal (c : Char) : Option ℕ :=
  if '0' ≤ c ∧ c ≤ '9' then some (c.toNat - '0'.toNat)
  else if 'a' ≤ c ∧ c ≤ 'f' then some (c.toNat - 'a'.toNat + 10)
  else if 'A' ≤ c ∧ c ≤ 'F' then some (c.toNat - 'A'.toNat + 10)
  else none

/-- Is `c` an ASCII character (`[\x00-\x7f]`, the range of `_asciire`)? -/
def isAsciiChar (c : Char) : Bool := c.toNat < 128

/-- UTF-8 encoding of one character as byte values. -/
def utf8EncodeChar (c : Char) : List ℕ :=
  let n := c.toNat
  if n < 0x80 then [n]
  else if n < 0x800 then [0xC0 + n / 0x40, 0x80 + n % 0x40]
  else if n < 0x10000 then
    [0xE0 + n / 0x1000, 0x80 + (n / 0x40) % 0x40, 0x80 + n % 0x40]
  else
    [0xF0 + n / 0x40000, 0x80 + (n / 0x1000) % 0x40, 0x80 + (n / 0x40) % 0x40,
     0x80 + n % 0x40]

/-- UTF-8 encoding of a string as byte values (Python `str.encode("utf-8")`). -/
def utf8Encode (s : String) : List ℕ := (s.data.map utf8EncodeChar).flatten

/-- Percent-decoding of an ASCII chunk to byte values: each valid `%XX`
escape becomes one byte, invalid escapes are kept literally (models
`urllib.parse.unquote_to_bytes`). -/
def pctDecodeBytes : List Char → List ℕ
  | [] => []
  | '%' :: a :: b :: rest =>
    match hexVal a, hexVal b with
    | some x, some y => (16 * x + y) :: pctDecodeBytes rest
    | _, _ => 0x25 :: pctDecodeBytes (a :: b :: rest)
  | '%' :: rest => 0x25 :: pctDecodeBytes rest
  | c :: rest => c.toNat :: pctDecodeBytes rest

/-- Worker for `pyUnquote`: processes maximal ASCII runs through percent
decoding + UTF-8 decoding and keeps non-ASCII runs verbatim (models the
`_asciire` split inside `urllib.parse.unquote`).  The fuel argument keeps
the recursion structural; every step consumes at least one character, so
with `fuel ≥ l.length` the fuel-exhausted case is unreachable. -/
def unquoteRuns (env : PyEnv) : ℕ → List Char → String
  | _, [] => ""
  | 0, l => String.mk l
  | fuel + 1, c :: cs =>
    if isAsciiChar c then
      env.utf8DecodeReplace (pctDecodeBytes ((c :: cs).takeWhile isAsciiChar)) ++
        unquoteRuns env fuel ((c :: cs).dropWhile isAsciiChar)
    else
      String.mk ((c :: cs).takeWhile (fun x => !isAsciiChar x)) ++
        unquoteRuns env fuel ((c :: cs).dropWhile (fun x => !isAsciiChar x))

/-- Models `urllib.parse.unquote(s, encoding="utf-8", errors="replace")`. -/
def pyUnquote (env : PyEnv) (s : String) : String :=
  if s.data.contains '%' then unquoteRuns env s.data.length s.data else s

/-- Is this byte in `urllib.parse`'s always-safe set
(ASCII letters, digits, `_.-~`)? -/
def alwaysSafeByte (b : ℕ) : Bool :=
  decide ((0x41 ≤ b ∧ b ≤ 0x5A) ∨ (0x61 ≤ b ∧ b ≤ 0x7A) ∨ (0x30 ≤ b ∧ b ≤ 0x39)) ||
    ([0x5F, 0x2E, 0x2D, 0x7E].contains b)

/-- Upper-case hex digit for a value `< 16`. -/
def hexDigitUpper (n : ℕ) : Char := ("0123456789ABCDEF".data.getD n '0')

/-- Percent-escapes one byte as `%XX`. -/
def pctEscapeByte (b : ℕ) : String :=
  String.mk ['%', hexDigitUpper (b / 16), hexDigitUpper (b % 16)]

/-- Models `urllib.parse.quote(s, safe)` for an ASCII-byte safe set. -/
def pyQuote (safe : List ℕ) (s : String) : String :=
  String.join ((utf8Encode s).map (fun b =>
    if alwaysSafeByte b || safe.contains b then String.mk [Char.ofNat b]
    else pctEscapeByte b))

/-- Models `urllib.parse.quote_plus(s)` with `safe=""` (as used by
`urlencode`): spaces become `+`. -/
def pyQuotePlus (s : String) : String :=
  if s.data.contains ' ' then pyReplace (pyQuote [0x20] s) " " "+"
  else pyQuote [] s

/-- Models `urllib.parse.parse_qsl(qs, keep_blank_values=True)`. -/
def parse_qsl (env : PyEnv) (qs : String) : List (String × String) :=
  if qs = "" then []
  else
    (splitOnChar '&' qs).filterMap (fun nv =>
      if nv = "" then none
      else
        let p :=
          match splitOnceL '=' nv.data with
          | some (n, v) => (String.mk n, String.mk v)
          | none => (nv, "")
        some (pyUnquote env (pyReplace p.1 "+" " "), pyUnquote env (pyReplace p.2 "+" " ")))

/-- Models `urllib.parse.urlencode(q)` (default `quote_plus` quoting). -/
def urlencode (q : List (String × String)) : String :=
  String.intercalate "&" (q.map (fun kv => pyQuotePlus kv.1 ++ "=" ++ pyQuotePlus kv.2))

/-- Result of `urlsplit`/`urlparse` (the `params` component is already
stripped off the path by `urlparsePy`, mirroring `ParseResult.path`). -/
structure UrlSplit where
  scheme : String
  netloc : String
  path : String
  query : String
  fragment : String
deriving DecidableEq

/-- Characters allowed in a URL scheme (`urllib.parse.scheme_chars`). -/
def schemeChars : List Char :=
  "abcdefghijklmnopqrstuvwxyzABCDEFGHIJKLMNOPQRSTUVWXYZ0123456789+-.".data

/-- Schemes using a netloc (`urllib.parse.uses_netloc`). -/
def usesNetloc : List String :=
  ["", "ftp", "http", "gopher", "nntp", "telnet", "imap", "wais", "file", "mms",
   "https", "shttp", "snews", "prospero", "rtsp", "rtsps", "rtspu", "rsync",
   "svn", "svn+ssh", "sftp", "nfs", "git", "git+ssh", "ws", "wss"]

/-- Schemes using path params (`urllib.parse.uses_params`). -/
def usesParams : List String :=
  ["", "ftp", "hdl", "prospero", "http", "imap", "https", "shttp", "rtsp",
   "rtsps", "rtspu", "sip", "sips", "mms", "sftp", "tel"]

/-- WHATWG C0-control-or-space predicate used by `urlsplit`'s `lstrip`. -/
def isC0OrSpace (c : Char) : Bool := c.toNat ≤ 0x20

/-- Is `c` an ASCII letter (`c.isascii() and c.isalpha()`)? -/
def isAsciiAlpha (c : Char) : Bool :=
  decide (('a' ≤ c ∧ c ≤ 'z') ∨ ('A' ≤ c ∧ c ≤ 'Z'))

/-- Models `urllib.parse._splitnetloc`: the netloc part runs up to the first
of `/`, `?`, `#`. -/
def splitNetlocL (l : List Char) : List Char × List Char :=
  (l.takeWhile (fun c => !(['/', '?', '#'].contains c)),
   l.dropWhile (fun c => !(['/', '?', '#'].contains c)))

/-- Models `urllib.parse.urlsplit` (CPython 3.11); `none` models the
`ValueError`s raised for invalid bracketed netlocs. -/
def urlsplitPy (env : PyEnv) (url0 : String) : Option UrlSplit :=
  let u1 := (url0.data.dropWhile isC0OrSpace).filter
    (fun c => !(['\t', '\r', '\n'].contains c))
  let pre := u1.takeWhile (· ≠ ':')
  let schemeAndRest :=
    if pre.length < u1.length ∧ 0 < pre.length ∧
        (match u1.head? with
         | some c => isAsciiAlpha c
         | none => false) = true ∧
        pre.all (fun c => schemeChars.contains c) then
      (pyLower (String.mk pre), u1.drop (pre.length + 1))
    else ("", u1)
  let scheme := schemeAndRest.1
  let u2 := schemeAndRest.2
  let netlocAndRest :=
    if ('/' :: '/' :: []).isPrefixOf u2 then splitNetlocL (u2.drop 2)
    else ([], u2)
  let netloc := netlocAndRest.1
  let u3 := netlocAndRest.2
  if (netloc.contains '[' ∧ ¬ netloc.contains ']') ∨
      (netloc.contains ']' ∧ ¬ netloc.contains '[') then none
  else if netloc.contains '[' ∧ netloc.contains ']' ∧
      env.bracketedHostFails
        (String.mk (((netloc.dropWhile (· ≠ '[')).drop 1).takeWhile (· ≠ ']'))) then
    none
  else
    let fragSplit :=
      match splitOnceL '#' u3 with
      | some p => p
      | none => (u3, [])
    let querySplit :=
      match splitOnceL '?' fragSplit.1 with
      | some p => p
      | none => (fragSplit.1, [])
    if netloc ≠ [] ∧ ¬ netloc.all isAsciiChar ∧
        env.netlocNonAsciiFails (String.mk netloc) then none
    else
      some ⟨scheme, String.mk netloc, String.mk querySplit.1,
            String.mk querySplit.2, String.mk fragSplit.2⟩

/-- Models `urllib.parse._splitparams` restricted to the path part kept by
`urlparse` (the params are discarded by `canonical_url`). -/
def splitParamsPath (path : List Char) : List Char :=
  if path.contains '/' then
    let lastSeg := (path.reverse.takeWhile (· ≠ '/')).reverse
    if lastSeg.contains ';' then
      path.take (path.length - lastSeg.length) ++ lastSeg.takeWhile (· ≠ ';')
    else path
  else if path.contains ';' then path.takeWhile (· ≠ ';')
  else path

/-- Models `urllib.parse.urlparse` (the `params` component is dropped, as
`canonical_url` only reads `scheme`, `netloc`, `path`, `query`). -/
def urlparsePy (env : PyEnv) (url : String) : Option UrlSplit :=
  match urlsplitPy env url with
  | none => none
  | some r =>
    if usesParams.contains r.scheme ∧ r.path.data.contains ';' then
      some {r with path := String.mk (splitParamsPath r.path.data)}
    else some r

/-- Models `urllib.parse.urlunsplit` (CPython 3.11). -/
def urlunsplitPy (scheme netloc path query fragment : String) : String :=
  let url := path
  let url :=
    if netloc ≠ "" ∨ (scheme ≠ "" ∧ usesNetloc.contains scheme ∧ ¬ pyStartsWith url "//") then
      "//" ++ netloc ++ (if url ≠ "" ∧ ¬ pyStartsWith url "/" then "/" ++ url else url)
    else url
  let url := if scheme ≠ "" then scheme ++ ":" ++ url else url
  let url := if query ≠ "" then url ++ "?" ++ query else url
  if fragment ≠ "" then url ++ "#" ++ fragment else url

/-- Models `urllib.parse.urlunparse`. -/
def urlunparsePy (scheme netloc path params query fragment : String) : String :=
  urlunsplitPy scheme netloc (if params ≠ "" then path ++ ";" ++ params else path)
    query fragment

/-! ## Data model

One candidate dict of the pipeline.  Fields the code reads with `.get` are
`Option`s (`none` = absent).  `metrics` counters default to `0` exactly as
the code's `int(m.get(k, 0) or 0)` does.  `followers` flattens the code's
`(it.get("author") or {}).get("followers", 0)`.  `createdAt` holds the
already-parsed UTC timestamp in seconds (`none` models a missing or
unparseable `createdAt` string, for which `rank._parse_created` returns
`None`). -/

/-- Engagement counters of a candidate (missing counters are `0`). -/
structure Metrics where
  bookmark : ℕ := 0
  retweet : ℕ := 0
  reply : ℕ := 0
  like : ℕ := 0
deriving DecidableEq

/-- One candidate dict. -/
structure Item where
  id : Option String := none
  url : Option String := none
  text : Option String := none
  category : Option String := none
  key : Option String := none
  text_hash : Option String := none
  metrics : Metrics := {}
  followers : ℕ := 0
  createdAt : Option ℚ := none
  source : Option String := none
  platform : Option String := none
deriving DecidableEq

/-- One discovery block (`{"category": ..., "items": [...]}`). -/
structure Block where
  category : Option String := none
  items : List Item := []
deriving DecidableEq

/-! ## scripts/normalize.py -/

/-- Models `normalize.KEEP_PARAMS`. -/
def KEEP_PARAMS : List String := ["id"]

/-- Models `normalize.canonical_url`; `none` models a `ValueError` escaping
from `urlparse`. -/
def canonical_url (env : PyEnv) (url : String) : Option String :=
  if url = "" then some ""
  else
    match urlparsePy env (pyStrip url) with
    | none => none
    | some p =>
      let host := pyReplace (pyLower p.netloc) "www." ""
      let path := String.mk (p.path.data.reverse.dropWhile (· = '/')).reverse
      let host := if host = "x.com" ∨ host = "twitter.com" then "x.com" else host
      let q := (parse_qsl env p.query).filterMap (fun kv =>
        let kl := pyLower kv.1
        if pyStartsWith kl "utm_" ∨ ["ref", "ref_src", "s", "t"].contains kl then none
        else if KEEP_PARAMS.contains kl then some kv
        else none)
      let query := urlencode q
      some (urlunparsePy (if p.scheme = "" then "https" else p.scheme) host path "" query "")

/-- Models `normalize.key_for`: platform id gives `tweet:{id}`, otherwise a
hash of the canonical URL gives `url:{hash}`. -/
def key_for (env : PyEnv) (item : Item) : Option String :=
  if pyTruthy item.id then some ("tweet:" ++ item.id.getD "")
  else
    match canonical_url env (item.url.getD "") with
    | none => none
    | some u => some ("url:" ++ env.sha256hex16 u)

/-- Per-category funnel counters of `normalize.run` (dict
`{"in": ..., "url_dup": ..., "id_dup": ..., "text_dup": ..., "out": ...}`). -/
structure NormStats where
  in_ : ℕ := 0
  url_dup : ℕ := 0
  id_dup : ℕ := 0
  text_dup : ℕ := 0
  out : ℕ := 0
deriving DecidableEq

/-- The per-category stats mapping of `normalize.run` (a `defaultdict`). -/
def StatsL : Type := List (Option String × NormStats)

instance : DecidableEq StatsL := by
  unfold StatsL
  infer_instance

/-- Lookup with `defaultdict` semantics: absent categories read as all-zero. -/
def getStat (l : StatsL) (c : Option String) : NormStats :=
  ((l.find? (fun p => p.1 = c)).map Prod.snd).getD {}

/-- Upsert of one category's counters. -/
def setStat : StatsL → Option String → NormStats → StatsL
  | [], c, v => [(c, v)]
  | (c', v') :: rest, c, v =>
    if c' = c then (c, v) :: rest else (c', v') :: setStat rest c v

/-- Applies `f` to one category's counters (`st["x"] += 1` updates). -/
def bumpStat (l : StatsL) (c : Option String) (f : NormStats → NormStats) : StatsL :=
  setStat l c (f (getStat l c))

/-- Mutable state of the `normalize.run` loop: accepted items, the three
batch-scoped seen-sets, and the funnel counters. -/
structure NState where
  out : List Item := []
  seen_keys : List String := []
  seen_urls : List String := []
  seen_text : List String := []
  stats : StatsL := []

/-- One iteration of the `normalize.run` inner loop over a candidate `it` of
block category `cat`; `none` models an exception escaping `canonical_url`.
The dedup conditions read the pre-update seen-sets, exactly as the source
does (the source's interleaved inserts never touch a set that is checked
afterwards in the same iteration). -/
def stepItem (env : PyEnv) (cat : Option String) (it : Item) (st : NState) :
    Option NState :=
  let stats1 := bumpStat st.stats cat (fun s => {s with in_ := s.in_ + 1})
  match canonical_url env (it.url.getD "") with
  | none => none
  | some urlC =>
    match key_for env {it with url := some urlC} with
    | none => none
    | some key =>
      let th := env.textHash (it.text.getD "")
      let it2 : Item := {it with url := some urlC, key := some key, text_hash := some th}
      if urlC = "" ∧ pyFalsy it.id then some {st with stats := stats1}
      else if st.seen_keys.contains key then
        some {st with stats := bumpStat stats1 cat (fun s => {s with id_dup := s.id_dup + 1})}
      else if urlC ≠ "" ∧ st.seen_urls.contains urlC then
        some {st with seen_keys := key :: st.seen_keys,
                      stats := bumpStat stats1 cat (fun s => {s with url_dup := s.url_dup + 1})}
      else if st.seen_text.contains th then
        some {st with seen_keys := key :: st.seen_keys,
                      seen_urls := if urlC ≠ "" then urlC :: st.seen_urls else st.seen_urls,
                      stats := bumpStat stats1 cat (fun s => {s with text_dup := s.text_dup + 1})}
      else
        some {st with seen_keys := key :: st.seen_keys,
                      seen_urls := if urlC ≠ "" then urlC :: st.seen_urls else st.seen_urls,
                      seen_text := th :: st.seen_text,
                      out := st.out ++ [{it2 with category := cat}],
                      stats := bumpStat stats1 cat (fun s => {s with out := s.out + 1})}

/-- The `normalize.run` inner loop over one block's items. -/
def processItems (env : PyEnv) (cat : Option String) :
    List Item → NState → Option NState
  | [], st => some st
  | it :: rest, st =>
    match stepItem env cat it st with
    | none => none
    | some st' => processItems env cat rest st'

/-- The `normalize.run` outer loop over blocks. -/
def processBlocks (env : PyEnv) : List Block → NState → Option NState
  | [], st => some st
  | b :: rest, st =>
    match processItems env b.category b.items st with
    | none => none
    | some st' => processBlocks env rest st'

/-- Models `normalize.run`: returns the deduplicated items together with the
per-category funnel counters (the code returns only the items and prints the
counters; they are exposed here because the spec talks about them). -/
def normalize_run (env : PyEnv) (blocks : List Block) :
    Option (List Item × StatsL) :=
  match processBlocks env blocks {} with
  | none => none
  | some st => some (st.out, st.stats)

/-! ## scripts/extract.py -/

/-- Models the candidate-level effect of `extract.run`: a falsy `text`
becomes `""`; the fetched `external` enrichment list is I/O outside the
verified core and is not modelled. -/
def extract_run (items : List Item) : List Item :=
  items.map (fun it => {it with text := some (it.text.getD "")})

/-! ## scripts/memory_store.py -/

/-- One parsed JSONL memory record (`seen_at` is the parsed timestamp in UTC
seconds; `none` models a missing or non-ISO value, for which
`datetime.fromisoformat` raises and the reader skips the record). -/
structure MemRec where
  key : Option String := none
  category : Option String := none
  tier : Option String := none
  seen_at : Option ℤ := none
deriving DecidableEq

/-- One line of the persisted JSONL store: blank, JSON-unparseable, or a
record. -/
inductive StoreLine
  | blank
  | bad
  | entry (r : MemRec)
deriving DecidableEq

/-- Models `memory_store._load_all`: keeps exactly the parseable records. -/
def load_all (store : List StoreLine) : List MemRec :=
  store.filterMap (fun l =>
    match l with
    | .entry r => some r
    | _ => none)

/-- The key a single record contributes to `load_recent`'s key set (given
the two cutoffs), `none` if it contributes nothing. -/
def recActiveKey (pickCut rankedCut : ℤ) (r : MemRec) : Option String :=
  match r.seen_at with
  | none => none
  | some ts =>
    let tier := r.tier.getD "pick"
    match r.key with
    | none => none
    | some k =>
      if k = "" then none
      else if tier = "pick" ∧ pickCut ≤ ts then some k
      else if tier = "ranked" ∧ rankedCut ≤ ts then some k
      else none

/-- Models `memory_store.load_recent` (the key set is represented as a list;
membership is what matters).  `pickTtl`/`rankedTtl` model the
`TREND_MEMORY_DAYS` / `TREND_RANKED_TTL_DAYS` environment values, `now` the
current UTC time in seconds, `days` the optional override parameter. -/
def load_recent (pickTtl rankedTtl : ℤ) (now : ℤ) (days : Option ℤ)
    (store : List StoreLine) : List String :=
  let pickCut := now - 86400 * (days.getD pickTtl)
  let rankedCut := now - 86400 * rankedTtl
  (load_all store).filterMap (recActiveKey pickCut rankedCut)

/-- Models `memory_store.filter_new`. -/
def filter_new (pickTtl rankedTtl : ℤ) (now : ℤ) (days : Option ℤ)
    (store : List StoreLine) (candidates : List Item) : List Item :=
  let seen := load_recent pickTtl rankedTtl now days store
  candidates.filter (fun c =>
    match c.key with
    | some k => !(seen.contains k)
    | none => true)

/-- The key `memory_store.append` derives for one item:
`p.get("key") or (f"tweet:{id}" if p.get("id") else "")`. -/
def appendRecKey (p : Item) : String :=
  if pyTruthy p.key then p.key.getD ""
  else if pyTruthy p.id then "tweet:" ++ p.id.getD ""
  else ""

/-- Models `memory_store.append`: appends one well-formed record per keyed
item (the `fcntl` lock only serializes concurrent writers and has no
single-writer semantics to model). -/
def append (tier : String) (now : ℤ) (store : List StoreLine)
    (items : List Item) : List StoreLine :=
  items.foldl (fun acc p =>
    let key := appendRecKey p
    if key = "" then acc
    else acc ++ [StoreLine.entry ⟨some key, some (p.category.getD ""), some tier, some now⟩])
    store

/-- One iteration of the `memory_store.cleanup` rewrite loop: keep the
record when its tier TTL has not elapsed, count it as removed when its
timestamp parses but it is not kept, skip it silently otherwise. -/
def cleanupStep (pickCut rankedCut : ℤ) (acc : List MemRec × ℕ) (r : MemRec) :
    List MemRec × ℕ :=
  match r.seen_at with
  | none => acc
  | some ts =>
    let tier := r.tier.getD "pick"
    if tier = "pick" ∧ pickCut ≤ ts then (acc.1 ++ [r], acc.2)
    else if tier = "ranked" ∧ rankedCut ≤ ts then (acc.1 ++ [r], acc.2)
    else (acc.1, acc.2 + 1)

/-- Models `memory_store.cleanup`: rewrites the store, returning the new
store contents and the removed-record count. -/
def cleanup (pickTtl rankedTtl : ℤ) (now : ℤ) (days : Option ℤ)
    (store : List StoreLine) : List StoreLine × ℕ :=
  let pickCut := now - 86400 * (days.getD pickTtl)
  let rankedCut := now - 86400 * rankedTtl
  let acc := (load_all store).foldl (cleanupStep pickCut rankedCut) ([], 0)
  (acc.1.map StoreLine.entry, acc.2)

/-! ## scripts/rank.py -/

/-- Models `rank.BLACKLIST`. -/
def BLACKLIST : List String :=
  ["airdrop", "giveaway", "copytrade",
   "i am building an ai applied to marketing tech startup",
   "outside consultant",
   "dm me", "link in bio", "free course", "free ebook",
   "get rich", "passive income guaranteed", "10x your income",
   "drop a", "comment below", "retweet to win",
   "crypto trading bot", "forex", "binary option",
   "dropshipping", "print on demand",
   "follow me for", "follow for follow",
   "limited spots", "spots remaining", "enroll now"]

/-- Models `rank._classify_reject`; `redditMin` models the
`REDDIT_MIN_RANK_SCORE` environment value (default 50). -/
def classify_reject (redditMin : ℤ) (it : Item) : Bool × String :=
  let text := pyStrip (it.text.getD "")
  let t_low := pyLower text
  if text = "" then (false, "empty")
  else if (pySplitWs text).length < 8 then (false, "short")
  else if BLACKLIST.any (fun b => containsSub t_low b) then (false, "blacklisted")
  else if 5 ≤ pyCountChar t_low '@' then (false, "too_many_mentions")
  else
    let bookmarks := it.metrics.bookmark
    let retweets := it.metrics.retweet
    if it.platform = some "reddit" then
      if (it.metrics.like : ℤ) < redditMin then (false, "low_eng") else (true, "ok")
    else if it.source = some "author" then
      if bookmarks < 1 ∧ retweets < 1 ∧ it.metrics.like < 3 then (false, "low_eng")
      else (true, "ok")
    else
      if bookmarks < 2 ∧ retweets < 1 then (false, "low_eng") else (true, "ok")

/-- Models `rank._raw_engagement` (exact arithmetic). -/
def raw_engagement (m : Metrics) : ℚ :=
  10 * (m.bookmark : ℚ) + 3 * (m.retweet : ℚ) + 2 * (m.reply : ℚ) + 1 * (m.like : ℚ)

/-- Models `rank._hours_since` at current time `now` (seconds): `48.0` for an
unparseable `createdAt`, else `max(0.1, elapsed_hours)`. -/
noncomputable def hours_since (now : ℚ) (createdAt : Option ℚ) : ℝ :=
  match createdAt with
  | none => 48
  | some t => max 0.1 (((now - t : ℚ) : ℝ) / 3600)

/-- Half-even rounding to an integer (the tie rule of Python `round`). -/
noncomputable def roundHalfEven (x : ℝ) : ℤ :=
  if Int.fract x < 1 / 2 then ⌊x⌋
  else if 1 / 2 < Int.fract x then ⌊x⌋ + 1
  else if ⌊x⌋ % 2 = 0 then ⌊x⌋ else ⌊x⌋ + 1

/-- Models Python `round(x, 5)` over exact reals. -/
noncomputable def pyRound5 (x : ℝ) : ℝ := (roundHalfEven (x * 100000) : ℝ) / 100000

/-- Models the `total` value of `rank.score` before the final `round(·, 5)`:
`(velocity·2.5 + relative·2.0 + virality·1.5) · freshness · source_boost`. -/
noncomputable def score_pre (now : ℚ) (it : Item) : ℝ :=
  let m := it.metrics
  let hours := hours_since now it.createdAt
  let eng : ℝ := ((raw_engagement m : ℚ) : ℝ)
  let velocity := eng / (hours + 2)
  let relative := eng / Real.logb 10 ((it.followers : ℝ) + 10)
  let virality := (m.retweet : ℝ) / ((m.like : ℝ) + 1)
  let freshness := Real.exp (-0.0125 * hours)
  let source_boost : ℝ := if it.source = some "author" then 1.15 else 1
  (velocity * 2.5 + relative * 2.0 + virality * 1.5) * freshness * source_boost

/-- Models the total score returned by `rank.score` (its first component,
`round(total, 5)`). -/
noncomputable def score_total (now : ℚ) (it : Item) : ℝ := pyRound5 (score_pre now it)

/-! ## scripts/run.py (stage 2–2c dedup fragments) -/

/-- The cross-category dedup key of `run.main`:
`k = it.get("id") or it.get("url")`. -/
def mergeKey (it : Item) : Option String :=
  if pyTruthy it.id then it.id
  else if pyTruthy it.url then it.url
  else none

/-- Insert into the insertion-ordered dict of `run.main`'s cross-category
dedup, keeping the instance with the strictly longer text on key collision. -/
def upsertLonger : List (String × Item) → String → Item → List (String × Item)
  | [], k, it => [(k, it)]
  | (k', old) :: rest, k, it =>
    if k' = k then
      (k', if (old.text.getD "").length < (it.text.getD "").length then it else old) :: rest
    else (k', old) :: upsertLonger rest k it

/-- Models `run.main`'s cross-category dedup loop (run.py lines 148–161). -/
def cross_merge (items : List Item) : List Item :=
  (items.foldl (fun acc it =>
    match mergeKey it with
    | none => acc
    | some k => upsertLonger acc k it) []).map Prod.snd

/-- Models the composed dedup phase of `run.main`
(normalize → extract → memory TTL filter → cross-category merge). -/
def stage2_dedup (env : PyEnv) (pickTtl rankedTtl memoryDays : ℤ) (now : ℤ)
    (store : List StoreLine) (blocks : List Block) : Option (List Item) :=
  match normalize_run env blocks with
  | none => none
  | some r =>
    some (cross_merge (filter_new pickTtl rankedTtl now (some memoryDays) store
      (extract_run r.1)))

/-! ## Default environment instantiation (for concrete evaluations)

Concrete counterexamples below never reach a code path whose outcome depends
on these parameters; any instantiation exhibits the same behaviour as the
real primitives on those inputs. -/

/-- Byte decoding that is exact on ASCII input (sufficient for every
concrete evaluation in this file, none of which reaches a non-ASCII byte). -/
def utf8DecodeReplaceApprox (bs : List ℕ) : String :=
  String.mk (bs.map (fun b => if b < 128 then Char.ofNat b else '�'))

/-- Concrete `PyEnv` used by closed counterexamples. -/
def defaultEnv : PyEnv where
  textHash := fun s => s
  sha256hex16 := fun s => s
  utf8DecodeReplace := utf8DecodeReplaceApprox
  netlocNonAsciiFails := fun _ => false
  bracketedHostFails := fun _ => false

/-! ## Spec-side auxiliary definitions used by the theorem statements -/

/-- Sum of the four dedup-outcome counters tracked by `normalize.run`
(accepted plus the three rejection reasons). -/
def dedupAccounted (s : NormStats) : ℕ := s.out + s.id_dup + s.url_dup + s.text_dup

/-- A candidate the `normalize.run` loop drops silently (its canonical URL is
empty and its id falsy): no dedup counter records it. -/
def isSkipped (env : PyEnv) (it : Item) : Bool :=
  decide (canonical_url env (it.url.getD "") = some "") && pyFalsy it.id

/-- Number of candidates of category `c` entering the normalize stage. -/
def inCount (c : Option String) : List Block → ℕ
  | [] => 0
  | b :: rest => (if c = b.category then b.items.length else 0) + inCount c rest

/-- Number of category-`c` candidates the normalize loop does not silently
skip. -/
def nonSkipCount (env : PyEnv) (c : Option String) : List Block → ℕ
  | [] => 0
  | b :: rest =>
    (if c = b.category then (b.items.filter (fun it => !(isSkipped env it))).length else 0) +
      nonSkipCount env c rest

/-- Number of category-`c` candidates the normalize loop silently skips. -/
def skipCount (env : PyEnv) (c : Option String) : List Block → ℕ
  | [] => 0
  | b :: rest =>
    (if c = b.category then (b.items.filter (isSkipped env)).length else 0) +
      skipCount env c rest

/-- Should `cleanup` keep this record: parseable `seen_at`, recognized tier
(with the missing-tier default `"pick"`), and tier TTL not elapsed (the two
arguments are the pick and ranked cutoff instants). -/
def keepRec (pickCut rankedCut : ℤ) (r : MemRec) : Bool :=
  match r.seen_at with
  | none => false
  | some ts =>
    decide ((r.tier.getD "pick" = "pick" ∧ pickCut ≤ ts) ∨
      (r.tier.getD "pick" = "ranked" ∧ rankedCut ≤ ts))

/-- Does this record carry a parseable `seen_at` timestamp? -/
def hasSeenAt (r : MemRec) : Bool := r.seen_at.isSome

/-- The candidate with its `bookmark` metric set to `b` and every other
field unchanged (the variation C9 quantifies over). -/
def withBookmark (it : Item) (b : ℕ) : Item :=
  {it with metrics := {it.metrics with bookmark := b}}

/-! ## Shared helper lemmas -/

/-- `getStat` after `setStat` reads back the written entry. -/
theorem getStat_setStat (l : StatsL) (c c' : Option String) (v : NormStats) :
    getStat (setStat l c v) c' = if c' = c then v else getStat l c' := by
  induction l with
  | nil =>
    by_cases h : c' = c
    · subst h; simp [setStat, getStat, List.find?]
    · have h2 : ¬ c = c' := fun hh => h hh.symm
      simp [setStat, getStat, List.find?, h, h2]
  | cons hd tl ih =>
    obtain ⟨a, b⟩ := hd
    by_cases h1 : a = c
    · subst h1
      by_cases h : c' = a
      · subst h; simp [setStat, getStat, List.find?]
      · have h2 : ¬ a = c' := fun hh => h hh.symm
        simp [setStat, getStat, List.find?, h, h2]
    · by_cases h : c' = a
      · subst h
        simp [setStat, getStat, List.find?, h1]
      · have h2 : ¬ a = c' := fun hh => h hh.symm
        simp only [setStat, if_neg h1]
        simpa [getStat, List.find?, h2, h] using ih

/-- `getStat` after `bumpStat`. -/
theorem getStat_bump (l : StatsL) (cat c : Option String) (f : NormStats → NormStats) :
    getStat (bumpStat l cat f) c = if c = cat then f (getStat l cat) else getStat l c := by
  simp [bumpStat, getStat_setStat]

/-- The lengths of a filter and its complement add to the list length. -/
theorem length_filter_not_add {α : Type} (p : α → Bool) (l : List α) :
    (l.filter p).length + (l.filter (fun x => !(p x))).length = l.length := by
  induction l with
  | nil => rfl
  | cons a l ih => by_cases h : p a <;> simp [List.filter_cons, h] <;> omega

/-- Truthiness of an optional string unfolds to a nonempty `some`. -/
theorem pyTruthy_iff (o : Option String) :
    pyTruthy o = true ↔ ∃ s, o = some s ∧ s ≠ "" := by
  cases o <;> simp [pyTruthy]

/-- Unfolds `recActiveKey ... = some k` into the record-shape conditions. -/
theorem recActiveKey_eq_some (pickCut rankedCut : ℤ) (r : MemRec) (k : String) :
    recActiveKey pickCut rankedCut r = some k ↔
      r.key = some k ∧ k ≠ "" ∧
        ∃ ts, r.seen_at = some ts ∧
          ((r.tier.getD "pick" = "pick" ∧ pickCut ≤ ts) ∨
           (r.tier.getD "pick" = "ranked" ∧ rankedCut ≤ ts)) := by
  obtain ⟨key, cat, tier, seenAt⟩ := r
  rcases seenAt with _ | ts
  · simp [recActiveKey]
  · rcases key with _ | k'
    · simp [recActiveKey]
    · simp only [recActiveKey]
      by_cases hk0 : k' = ""
      · subst hk0
        constructor
        · intro h
          simp at h
        · rintro ⟨h1, h2, _⟩
          exact absurd (Option.some.inj h1).symm h2
      · rw [if_neg hk0]
        constructor
        · intro h
          split_ifs at h with h1 h2
          · cases h
            exact ⟨rfl, hk0, ts, rfl, Or.inl h1⟩
          · cases h
            exact ⟨rfl, hk0, ts, rfl, Or.inr h2⟩
        · rintro ⟨hkk, hne, ts2, hts, hcond⟩
          cases Option.some.inj hkk
          cases Option.some.inj hts
          rcases hcond with ⟨hp, hle⟩ | ⟨hp, hle⟩
          · rw [if_pos ⟨hp, hle⟩]
          · have hna : ¬ (tier.getD "pick" = "pick" ∧ pickCut ≤ ts) := by
              rintro ⟨hq, _⟩
              rw [hp] at hq
              exact absurd hq (by decide)
            rw [if_neg hna, if_pos ⟨hp, hle⟩]

/-! ## Claim C2 — quality-gate reason for a short blacklisted text -/

/-- C2 (amended): for every metrics, provenance and remaining fields, a
candidate whose text is `"free ebook dm me now"` is rejected by the quality
gate regardless of engagement, but with reason `"short"` (the 8-word minimum
fires before the blacklist check), not `"blacklisted"`. -/
theorem C2_blacklist_gate_amended (redditMin : ℤ) (idv urlv cat k th : Option String)
    (m : Metrics) (fol : ℕ) (ca : Option ℚ) (src plat : Option String) :
    classify_reject redditMin
        ⟨idv, urlv, some "free ebook dm me now", cat, k, th, m, fol, ca, src, plat⟩ =
      (false, "short") := rfl

/-- C2 (counterexample): the claim "rejected with reason `blacklisted`" is
false — with text `"free ebook dm me now"` (which does contain the blacklist
phrase `"free ebook"`) and high engagement, `_classify_reject` returns
reason `"short"`, which differs from `"blacklisted"`. -/
theorem C2_blacklist_gate_counterexample :
    classify_reject 50
        {text := some "free ebook dm me now",
         metrics := {bookmark := 100, retweet := 100, reply := 100, like := 100}} =
      (false, "short") ∧
    containsSub (pyLower (pyStrip "free ebook dm me now")) "free ebook" = true ∧
    ((false, "short") : Bool × String) ≠ (false, "blacklisted") :=
  ⟨rfl, rfl, by decide⟩

/-! ## Claim C3 — treatment of unrecognized memory tiers -/

/-- C3 (counterexample): a record with the unrecognized tier `"banana"` whose
`seen_at` (time `0`) is within the pick TTL of `load_recent` at `now = 0` is
*not* treated as tier `"pick"`: its key is absent from the active set. -/
theorem C3_unrecognized_tier_counterexample :
    ¬ ("k" ∈ load_recent 30 3 0 none
        [.entry ⟨some "k", some "c", some "banana", some 0⟩]) ∧
    ((0 : ℤ) - 86400 * 30 ≤ 0) := ⟨by decide, by decide⟩

/-- C3 (amended): a key is active iff some parseable record carries it,
nonempty, with a parseable `seen_at` within the TTL of its effective tier,
where the effective tier is the record's tier *defaulting to `"pick"` only
when the tier field is missing*; a record with a present but unrecognized
tier value contributes nothing (it is ignored, not treated as `"pick"`). -/
theorem C3_unrecognized_tier_amended (pickTtl rankedTtl now : ℤ) (days : Option ℤ)
    (store : List StoreLine) (k : String) :
    k ∈ load_recent pickTtl rankedTtl now days store ↔
      ∃ r ∈ load_all store, r.key = some k ∧ k ≠ "" ∧
        ∃ ts, r.seen_at = some ts ∧
          ((r.tier.getD "pick" = "pick" ∧ now - 86400 * days.getD pickTtl ≤ ts) ∨
           (r.tier.getD "pick" = "ranked" ∧ now - 86400 * rankedTtl ≤ ts)) := by
  simp only [load_recent, List.mem_filterMap]
  constructor
  · rintro ⟨r, hr, hk⟩
    exact ⟨r, hr, (recActiveKey_eq_some _ _ r k).mp hk⟩
  · rintro ⟨r, hr, hcond⟩
    exact ⟨r, hr, (recActiveKey_eq_some _ _ r k).mpr hcond⟩

/-! ## Claim C4 — identity-key platform prefixes -/

/-- C4 (counterexample): a tweet and a Reddit post carrying the same id
`"42"` receive the *same* key `"tweet:42"` — `key_for` never looks at the
platform, so ids from different platforms can collide. -/
theorem C4_platform_key_counterexample :
    key_for defaultEnv {id := some "42"} = some "tweet:42" ∧
    key_for defaultEnv
        {id := some "42", platform := some "reddit", source := some "subreddit"} =
      some "tweet:42" := ⟨rfl, rfl⟩

/-- C4 (amended): the identity key of every candidate with a truthy id is
`"tweet:" ++ id` regardless of the candidate's platform/provenance; the
prefix distinguishes id-derived keys from URL-derived (`"url:"`) keys, not
platforms, so equal ids from different platforms yield equal keys. -/
theorem C4_platform_key_amended (env : PyEnv) (it : Item) (i : String)
    (h1 : it.id = some i) (h2 : i ≠ "") :
    key_for env it = some ("tweet:" ++ i) := by
  simp [key_for, pyTruthy, h1, h2]

/-- C4 witness: the amended statement applied at a concrete Reddit-platform
candidate. -/
theorem C4_platform_key_amended_witness :
    key_for defaultEnv {id := some "9", platform := some "reddit"} =
      some ("tweet:" ++ "9") :=
  C4_platform_key_amended defaultEnv {id := some "9", platform := some "reddit"} "9"
    rfl (by decide)

/-! ## Claim C6 — idempotence of URL canonicalization -/

/-- C6 (code bug): `canonical_url` is not idempotent.  On the input
`"https://wwwwww.."`, the host-side `replace("www.", "")` (a replace-all,
not a prefix strip) turns the netloc `wwwwww..` into `www.`, and
re-canonicalizing `"https://www."` strips that occurrence too, giving
`"https://"` ≠ `"https://www."`. -/
theorem C6_canonical_url_not_idempotent :
    canonical_url defaultEnv "https://wwwwww.." = some "https://www." ∧
    canonical_url defaultEnv "https://www." = some "https://" ∧
    (canonical_url defaultEnv "https://wwwwww..").bind (canonical_url defaultEnv) ≠
      canonical_url defaultEnv "https://wwwwww.." :=
  ⟨by decide, by decide, by decide⟩

/-! ## Claim C7 — cleanup's removed count -/

/-- Rewrites one `cleanup` loop iteration through the keep/seen predicates. -/
theorem cleanupStep_eq (pc rc : ℤ) (acc : List MemRec × ℕ) (r : MemRec) :
    cleanupStep pc rc acc r =
      if keepRec pc rc r then (acc.1 ++ [r], acc.2)
      else if hasSeenAt r then (acc.1, acc.2 + 1)
      else acc := by
  rcases hs : r.seen_at with _ | ts
  · simp [cleanupStep, keepRec, hasSeenAt, hs]
  · simp only [cleanupStep, keepRec, hasSeenAt, hs]
    by_cases h1 : r.tier.getD "pick" = "pick" ∧ pc ≤ ts
    · simp [h1]
    · by_cases h2 : r.tier.getD "pick" = "ranked" ∧ rc ≤ ts
      · simp [h1, h2]
      · simp [h1, h2]

/-- A record kept by `cleanup` always has a parseable timestamp. -/
theorem keepRec_hasSeenAt (pc rc : ℤ) (r : MemRec) (h : keepRec pc rc r = true) :
    hasSeenAt r = true := by
  rcases hs : r.seen_at with _ | ts <;> simp_all [keepRec, hasSeenAt, hs]

/-- Unrolls the `cleanup` fold: kept records are the `keepRec`-filtered ones
in order, and the removed count tallies records with a parseable timestamp
that are not kept. -/
theorem cleanupStep_foldl (pc rc : ℤ) (recs : List MemRec) :
    ∀ (k0 : List MemRec) (n0 : ℕ),
      recs.foldl (cleanupStep pc rc) (k0, n0) =
        (k0 ++ recs.filter (keepRec pc rc),
         n0 + (recs.filter (fun r => hasSeenAt r && !(keepRec pc rc r))).length) := by
  induction recs with
  | nil => simp
  | cons r rest ih =>
    intro k0 n0
    rw [List.foldl_cons, cleanupStep_eq]
    by_cases hk : keepRec pc rc r = true
    · rw [if_pos hk, ih]
      simp [List.filter_cons, hk, List.append_assoc]
    · rw [if_neg hk]
      by_cases hs : hasSeenAt r = true
      · rw [if_pos hs, ih]
        simp only [List.filter_cons, hk, hs]
        simp [hk, hs]
        omega
      · rw [if_neg hs, ih]
        simp [List.filter_cons, hk, hs]

/-- Counting a filter and a sub-filter: when `q` implies `p`, the `p`-but-
not-`q` count plus the `q` count is the `p` count. -/
theorem filter_split_count {α : Type} (p q : α → Bool) (h : ∀ a, q a = true → p a = true)
    (l : List α) :
    (l.filter (fun a => p a && !(q a))).length + (l.filter q).length =
      (l.filter p).length := by
  induction l with
  | nil => rfl
  | cons a t ih =>
    by_cases hq : q a = true
    · have hp := h a hq
      simp [List.filter_cons, hp, hq]
      omega
    · by_cases hp : p a = true <;> simp [List.filter_cons, hp, hq] <;> omega

/-- C7 (amended): `cleanup` keeps exactly the records whose `seen_at` parses,
whose effective tier is recognized and whose tier TTL has not elapsed; the
returned removed count equals the number of records with a *parseable*
`seen_at` minus the number kept — records whose `seen_at` is missing or
unparseable are dropped from the store without being counted, so the count
can undershoot "records present before minus records kept". -/
theorem C7_cleanup_amended (pickTtl rankedTtl now : ℤ) (days : Option ℤ)
    (store : List StoreLine) :
    cleanup pickTtl rankedTtl now days store =
      (((load_all store).filter
          (keepRec (now - 86400 * days.getD pickTtl) (now - 86400 * rankedTtl))).map
          StoreLine.entry,
        (cleanup pickTtl rankedTtl now days store).2) ∧
    (cleanup pickTtl rankedTtl now days store).2 +
        ((load_all store).filter
          (keepRec (now - 86400 * days.getD pickTtl) (now - 86400 * rankedTtl))).length =
      ((load_all store).filter hasSeenAt).length := by
  have hfold := cleanupStep_foldl (now - 86400 * days.getD pickTtl)
    (now - 86400 * rankedTtl) (load_all store) [] 0
  have hsplit := filter_split_count hasSeenAt
    (keepRec (now - 86400 * days.getD pickTtl) (now - 86400 * rankedTtl))
    (keepRec_hasSeenAt _ _) (load_all store)
  constructor
  · simp [cleanup, hfold]
  · simp only [cleanup, hfold]
    simpa using hsplit

/-- C7 (counterexample): on a store holding one JSON-parseable record whose
`seen_at` does not parse, `cleanup` keeps nothing and returns removed count
`0`, while "records present before the rewrite minus records kept" is
`1 - 0 = 1`. -/
theorem C7_cleanup_counterexample :
    cleanup 30 3 0 none [.entry ⟨some "k", some "c", some "pick", none⟩] = ([], 0) ∧
    (load_all [StoreLine.entry ⟨some "k", some "c", some "pick", none⟩]).length = 1 ∧
    (0 : ℕ) ≠ 1 := ⟨by decide, by decide, by decide⟩

/-! ## Claim C8 — append / filter_new round trip -/

/-- C8: after `append`-ing a candidate with nonempty key `k` at tier
`"pick"`, an immediate `filter_new` (same `now`; any nonnegative effective
TTL parameter) removes every candidate with key `k` from any batch: the
returned batch contains no item keyed `k`. -/
theorem C8_append_filter_roundtrip (pickTtl rankedTtl now : ℤ) (days : Option ℤ)
    (store : List StoreLine) (c : Item) (k : String) (batch : List Item)
    (hk : c.key = some k) (hne : k ≠ "") (hd : 0 ≤ days.getD pickTtl) :
    (filter_new pickTtl rankedTtl now days (append "pick" now store [c]) batch).filter
      (fun x => x.key == some k) = [] := by
  have happ : append "pick" now store [c] =
      store ++ [StoreLine.entry ⟨some k, some (c.category.getD ""), some "pick", some now⟩] := by
    simp [append, appendRecKey, pyTruthy, hk, hne]
  have hmem : k ∈ load_recent pickTtl rankedTtl now days (append "pick" now store [c]) := by
    rw [happ]
    simp only [load_recent, load_all, List.filterMap_append, List.mem_append]
    right
    simp only [List.filterMap_cons, List.filterMap_nil]
    have : recActiveKey (now - 86400 * days.getD pickTtl) (now - 86400 * rankedTtl)
        ⟨some k, some (c.category.getD ""), some "pick", some now⟩ = some k := by
      rw [recActiveKey_eq_some]
      refine ⟨rfl, hne, now, rfl, Or.inl ⟨rfl, ?_⟩⟩
      have h86 : (0 : ℤ) ≤ 86400 * days.getD pickTtl := by positivity
      omega
    simp [this]
  rw [List.filter_eq_nil_iff]
  intro x hx
  rcases List.mem_filter.mp hx with ⟨_, hpass⟩
  intro hxk
  rw [beq_iff_eq] at hxk
  rw [hxk] at hpass
  simp only at hpass
  rw [Bool.not_eq_eq_eq_not, Bool.not_true] at hpass
  exact absurd (List.elem_eq_true_of_mem hmem) (by simpa [List.contains] using hpass)

/-- C8 witness: the round trip at a concrete store, candidate and batch. -/
theorem C8_append_filter_roundtrip_witness :
    (filter_new 30 3 0 none (append "pick" 0 [] [{key := some "kk"}])
      [{key := some "kk"}]).filter (fun x => x.key == some "kk") = [] :=
  C8_append_filter_roundtrip 30 3 0 none [] {key := some "kk"} "kk"
    [{key := some "kk"}] rfl (by decide) (by decide)

/-! ## Claim C10 — record shape written by append -/

/-- C10: `append` writes exactly one well-formed record per item that has a
truthy `key` or a truthy `id` — the record's key being the item's key when
truthy and `"tweet:" ++ id` otherwise — and silently skips (without error)
every item whose `key` and `id` are both missing or empty. -/
theorem C10_append_record_shape (tier : String) (now : ℤ) (store : List StoreLine)
    (items : List Item) :
    append tier now store items =
      store ++ (items.filter (fun p => pyTruthy p.key || pyTruthy p.id)).map (fun p =>
        StoreLine.entry
          ⟨some (if pyTruthy p.key then p.key.getD "" else "tweet:" ++ p.id.getD ""),
           some (p.category.getD ""), some tier, some now⟩) := by
  induction items generalizing store with
  | nil => simp [append]
  | cons p rest ih =>
    show List.foldl _ _ _ = _
    rw [List.foldl_cons]
    by_cases hk : pyTruthy p.key = true
    · obtain ⟨s, hs, hsne⟩ := (pyTruthy_iff p.key).mp hk
      have hkey : appendRecKey p = s := by simp [appendRecKey, hs, pyTruthy, hsne]
      have hne : appendRecKey p ≠ "" := by rw [hkey]; exact hsne
      rw [show (if appendRecKey p = "" then store
          else store ++ [StoreLine.entry ⟨some (appendRecKey p), some (p.category.getD ""),
            some tier, some now⟩]) = store ++ [StoreLine.entry ⟨some (appendRecKey p),
            some (p.category.getD ""), some tier, some now⟩] from if_neg hne]
      rw [show (List.foldl _ _ _ : List StoreLine) = append tier now (store ++ [_]) rest from rfl]
      rw [ih, List.append_assoc, List.singleton_append,
        List.filter_cons_of_pos (by simp [hk]), List.map_cons]
      congr 2
      rw [hkey, if_pos hk, hs]
      rfl
    · by_cases hi : pyTruthy p.id = true
      · obtain ⟨s, hs, hsne⟩ := (pyTruthy_iff p.id).mp hi
        have hkey : appendRecKey p = "tweet:" ++ s := by
          unfold appendRecKey
          rw [if_neg hk, if_pos hi, hs]
          rfl
        have hne : appendRecKey p ≠ "" := by
          rw [hkey]
          intro hcon
          have hd := congrArg String.data hcon
          rw [String.data_append] at hd
          simp at hd
        rw [show (if appendRecKey p = "" then store
            else store ++ [StoreLine.entry ⟨some (appendRecKey p), some (p.category.getD ""),
              some tier, some now⟩]) = store ++ [StoreLine.entry ⟨some (appendRecKey p),
              some (p.category.getD ""), some tier, some now⟩] from if_neg hne]
        rw [show (List.foldl _ _ _ : List StoreLine) = append tier now (store ++ [_]) rest from rfl]
        rw [ih, List.append_assoc, List.singleton_append,
          List.filter_cons_of_pos (by simp [hk, hi]), List.map_cons]
        congr 2
        rw [hkey, if_neg hk, hs]
        rfl
      · have hkey : appendRecKey p = "" := by
          simp only [appendRecKey, hk]
          simp only [Bool.not_eq_true] at hk hi
          simp [hk, hi]
        rw [show (if appendRecKey p = "" then store
            else store ++ [StoreLine.entry ⟨some (appendRecKey p), some (p.category.getD ""),
              some tier, some now⟩]) = store from if_pos hkey]
        rw [show (List.foldl _ _ _ : List StoreLine) = append tier now store rest from rfl]
        rw [ih, List.filter_cons_of_neg (by simp [hk, hi])]
/-! ## Claim C1 — intra-run dedup funnel invariant -/

/-- Per-item counter effect of one normalize-loop iteration: `in_` always
gains one for the block's category, and the four dedup-outcome counters
together gain exactly one unless the candidate is silently skipped (empty
canonical URL and falsy id), in which case they gain nothing. -/
theorem stepItem_stats (env : PyEnv) (cat : Option String) (it : Item) (st st' : NState)
    (h : stepItem env cat it st = some st') (c : Option String) :
    (getStat st'.stats c).in_ = (getStat st.stats c).in_ + (if c = cat then 1 else 0) ∧
    dedupAccounted (getStat st'.stats c) =
      dedupAccounted (getStat st.stats c) +
        (if c = cat ∧ isSkipped env it = false then 1 else 0) := by
  simp only [stepItem] at h
  cases hcu : canonical_url env (it.url.getD "") with
  | none => simp only [hcu] at h; exact Option.noConfusion h
  | some urlC =>
    simp only [hcu] at h
    cases hkf : key_for env {it with url := some urlC} with
    | none => simp only [hkf] at h; exact Option.noConfusion h
    | some key =>
      simp only [hkf] at h
      have hskipE : isSkipped env it = (decide (urlC = "") && pyFalsy it.id) := by
        simp [isSkipped, hcu]
      by_cases hskip : urlC = "" ∧ pyFalsy it.id = true
      · rw [if_pos hskip] at h
        have hst := Option.some.inj h
        subst hst
        have hsk : isSkipped env it = true := by
          rw [hskipE, hskip.1]
          simp [hskip.2]
        by_cases hc : c = cat <;>
          simp [getStat_bump, hc, dedupAccounted, hsk]
      · rw [if_neg hskip] at h
        have hsk : isSkipped env it = false := by
          rw [hskipE]
          rcases not_and_or.mp hskip with hx | hx
          · simp [hx]
          · simp only [Bool.not_eq_true] at hx
            simp [hx]
        by_cases hdup : st.seen_keys.contains key = true
        · rw [if_pos hdup] at h
          have hst := Option.some.inj h
          subst hst
          by_cases hc : c = cat <;>
            simp [getStat_bump, hc, dedupAccounted, hsk] <;> omega
        · rw [if_neg (by simpa using hdup)] at h
          by_cases hurl : urlC ≠ "" ∧ st.seen_urls.contains urlC = true
          · rw [if_pos hurl] at h
            have hst := Option.some.inj h
            subst hst
            by_cases hc : c = cat <;>
              simp [getStat_bump, hc, dedupAccounted, hsk] <;> omega
          · rw [if_neg hurl] at h
            by_cases htx : st.seen_text.contains (env.textHash (it.text.getD "")) = true
            · rw [if_pos htx] at h
              have hst := Option.some.inj h
              subst hst
              by_cases hc : c = cat <;>
                simp [getStat_bump, hc, dedupAccounted, hsk] <;> omega
            · rw [if_neg (by simpa using htx)] at h
              have hst := Option.some.inj h
              subst hst
              by_cases hc : c = cat <;>
                simp [getStat_bump, hc, dedupAccounted, hsk] <;> omega

/-- Counter effect of the normalize loop over one block's items. -/
theorem processItems_stats (env : PyEnv) (cat : Option String) :
    ∀ (items : List Item) (st st' : NState),
      processItems env cat items st = some st' → ∀ c,
      (getStat st'.stats c).in_ =
        (getStat st.stats c).in_ + (if c = cat then items.length else 0) ∧
      dedupAccounted (getStat st'.stats c) =
        dedupAccounted (getStat st.stats c) +
          (if c = cat then (items.filter (fun it => !(isSkipped env it))).length else 0) := by
  intro items
  induction items with
  | nil =>
    intro st st' h c
    simp only [processItems] at h
    have hst := Option.some.inj h
    subst hst
    simp
  | cons it rest ih =>
    intro st st' h c
    simp only [processItems] at h
    cases hstep : stepItem env cat it st with
    | none => rw [hstep] at h; simp at h
    | some st1 =>
      rw [hstep] at h
      obtain ⟨h1, h2⟩ := stepItem_stats env cat it st st1 hstep c
      obtain ⟨h3, h4⟩ := ih st1 st' h c
      constructor
      · rw [h3, h1]
        by_cases hc : c = cat <;> simp [hc] <;> omega
      · rw [h4, h2]
        by_cases hc : c = cat
        · by_cases hsk : isSkipped env it = true <;>
            simp [hc, hsk, List.filter_cons] <;> omega
        · simp [hc]

/-- Counter effect of the normalize loop over all blocks. -/
theorem processBlocks_stats (env : PyEnv) :
    ∀ (blocks : List Block) (st st' : NState),
      processBlocks env blocks st = some st' → ∀ c,
      (getStat st'.stats c).in_ = (getStat st.stats c).in_ + inCount c blocks ∧
      dedupAccounted (getStat st'.stats c) =
        dedupAccounted (getStat st.stats c) + nonSkipCount env c blocks := by
  intro blocks
  induction blocks with
  | nil =>
    intro st st' h c
    simp only [processBlocks] at h
    have hst := Option.some.inj h
    subst hst
    simp [inCount, nonSkipCount]
  | cons b rest ih =>
    intro st st' h c
    simp only [processBlocks] at h
    cases hP : processItems env b.category b.items st with
    | none => rw [hP] at h; simp at h
    | some st1 =>
      rw [hP] at h
      obtain ⟨h1, h2⟩ := processItems_stats env b.category b.items st st1 hP c
      obtain ⟨h3, h4⟩ := ih st1 st' h c
      refine ⟨?_, ?_⟩ <;> simp only [inCount, nonSkipCount] <;> omega

/-- Every input candidate is either silently skipped or accounted by a
dedup-outcome counter. -/
theorem inCount_split (env : PyEnv) (c : Option String) (blocks : List Block) :
    inCount c blocks = nonSkipCount env c blocks + skipCount env c blocks := by
  induction blocks with
  | nil => simp [inCount, nonSkipCount, skipCount]
  | cons b rest ihb =>
    simp only [inCount, nonSkipCount, skipCount]
    have hsplit := length_filter_not_add (isSkipped env) b.items
    by_cases hc : c = b.category
    · rw [if_pos hc, if_pos hc, if_pos hc]
      omega
    · rw [if_neg hc, if_neg hc, if_neg hc]
      omega

/-- C1 (amended): whenever `normalize.run` completes, for every category the
funnel counters satisfy `out + id_dup + url_dup + text_dup + skipped = in`,
where `skipped` counts the candidates with an empty canonical URL and a
falsy id, which the loop drops without touching any dedup counter (and
where `id_dup` is the code's name for the spec's key-dup counter).  The
claim's equation `out + key_dup + url_dup + text_dup = in` holds exactly
when no candidate of the category is silently skipped. -/
theorem C1_funnel_amended (env : PyEnv) (blocks : List Block) (out : List Item)
    (stats : StatsL) (h : normalize_run env blocks = some (out, stats)) (c : Option String) :
    (getStat stats c).in_ =
      (getStat stats c).out + (getStat stats c).id_dup + (getStat stats c).url_dup +
        (getStat stats c).text_dup + skipCount env c blocks := by
  simp only [normalize_run] at h
  cases hPB : processBlocks env blocks {} with
  | none => rw [hPB] at h; simp at h
  | some st =>
    rw [hPB] at h
    have hpair := Option.some.inj h
    have hstats : st.stats = stats := congrArg Prod.snd hpair
    subst hstats
    obtain ⟨h1, h2⟩ := processBlocks_stats env blocks {} st hPB c
    have hz1 : (getStat (({} : NState)).stats c).in_ = 0 := rfl
    have hz2 : dedupAccounted (getStat (({} : NState)).stats c) = 0 := rfl
    have hsplit := inCount_split env c blocks
    simp only [dedupAccounted] at h2 hz2
    omega

/-- C1 witness: the amended invariant applied at the one-candidate batch
that the counterexample uses (one skipped candidate of category `"c"`). -/
theorem C1_funnel_amended_witness :
    (getStat [(some "c", (⟨1, 0, 0, 0, 0⟩ : NormStats))] (some "c")).in_ =
      (getStat [(some "c", (⟨1, 0, 0, 0, 0⟩ : NormStats))] (some "c")).out +
        (getStat [(some "c", (⟨1, 0, 0, 0, 0⟩ : NormStats))] (some "c")).id_dup +
        (getStat [(some "c", (⟨1, 0, 0, 0, 0⟩ : NormStats))] (some "c")).url_dup +
        (getStat [(some "c", (⟨1, 0, 0, 0, 0⟩ : NormStats))] (some "c")).text_dup +
        skipCount defaultEnv (some "c") [⟨some "c", [({} : Item)]⟩] :=
  C1_funnel_amended defaultEnv [⟨some "c", [({} : Item)]⟩] []
    [(some "c", ⟨1, 0, 0, 0, 0⟩)] (by decide) (some "c")

/-- C1 (counterexample): a batch with one candidate of category `"c"` that
has no URL and no id gives counters `in = 1` but
`out + id_dup + url_dup + text_dup = 0`: the claimed equation fails. -/
theorem C1_funnel_counterexample :
    normalize_run defaultEnv [⟨some "c", [({} : Item)]⟩] =
      some ([], [(some "c", (⟨1, 0, 0, 0, 0⟩ : NormStats))]) ∧
    ¬ ((getStat [(some "c", (⟨1, 0, 0, 0, 0⟩ : NormStats))] (some "c")).out +
        (getStat [(some "c", (⟨1, 0, 0, 0, 0⟩ : NormStats))] (some "c")).id_dup +
        (getStat [(some "c", (⟨1, 0, 0, 0, 0⟩ : NormStats))] (some "c")).url_dup +
        (getStat [(some "c", (⟨1, 0, 0, 0, 0⟩ : NormStats))] (some "c")).text_dup =
        (getStat [(some "c", (⟨1, 0, 0, 0, 0⟩ : NormStats))] (some "c")).in_) :=
  ⟨by decide, by decide⟩

/-! ## Claim C5 — cross-category duplicate resolution -/

/-- C5 (amended): when two categories discover the same id (`"42"`) with
texts `t1` and `t2`, exactly one candidate survives the dedup phase, but it
is the *first* instance in input order with *its* text `t1` — whatever the
lengths of `t1` and `t2` — because `normalize.run`'s batch-wide key dedup
drops the second instance before `run.main`'s longer-text cross-category
merge ever sees it. -/
theorem C5_cross_merge_amended (env : PyEnv) (c1 c2 : Option String) (t1 t2 : String) :
    (stage2_dedup env 30 3 30 0 []
      [⟨c1, [{id := some "42", text := some t1}]⟩,
       ⟨c2, [{id := some "42", text := some t2}]⟩]).map
        (List.map (fun it => (it.id, it.text, it.category))) =
      some [(some "42", some t1, c1)] := rfl

set_option maxRecDepth 20000 in
/-- C5 (counterexample): with a 40-character first excerpt and a
400-character second excerpt, the surviving candidate carries the
40-character text, not the longer one the claim promises. -/
theorem C5_cross_merge_counterexample :
    (stage2_dedup defaultEnv 30 3 30 0 []
      [⟨some "A", [{id := some "42", text := some (String.mk (List.replicate 40 'a'))}]⟩,
       ⟨some "B", [{id := some "42", text := some (String.mk (List.replicate 400 'b'))}]⟩]).map
        (List.map (fun it => it.text)) =
      some [some (String.mk (List.replicate 40 'a'))] ∧
    (String.mk (List.replicate 40 'a')).length = 40 ∧
    (String.mk (List.replicate 400 'b')).length = 400 ∧
    String.mk (List.replicate 40 'a') ≠ String.mk (List.replicate 400 'b') :=
  ⟨by decide, by decide, by decide, by decide⟩

/-! ## Claim C9 — scoring monotonicity in bookmarks -/

/-- Half-even rounding never falls below the floor. -/
theorem le_roundHalfEven (x : ℝ) : ⌊x⌋ ≤ roundHalfEven x := by
  unfold roundHalfEven; split_ifs <;> omega

/-- Half-even rounding never exceeds the floor plus one. -/
theorem roundHalfEven_le (x : ℝ) : roundHalfEven x ≤ ⌊x⌋ + 1 := by
  unfold roundHalfEven; split_ifs <;> omega

/-- Half-even rounding is monotone. -/
theorem roundHalfEven_mono {x y : ℝ} (h : x ≤ y) : roundHalfEven x ≤ roundHalfEven y := by
  have hfl := Int.floor_mono h
  rcases eq_or_lt_of_le hfl with hf | hf
  · have hfr : Int.fract x ≤ Int.fract y := by
      simp only [Int.fract]
      rw [hf]
      linarith
    unfold roundHalfEven
    rw [hf]
    split_ifs <;> first | omega | linarith
  · calc roundHalfEven x ≤ ⌊x⌋ + 1 := roundHalfEven_le x
      _ ≤ ⌊y⌋ := by omega
      _ ≤ roundHalfEven y := le_roundHalfEven y

/-- Python `round(·, 5)` is monotone (but not strictly). -/
theorem pyRound5_mono {x y : ℝ} (h : x ≤ y) : pyRound5 x ≤ pyRound5 y := by
  unfold pyRound5
  have h1 := roundHalfEven_mono (by linarith : x * 100000 ≤ y * 100000)
  have h2 : ((roundHalfEven (x * 100000) : ℤ) : ℝ) ≤ ((roundHalfEven (y * 100000) : ℤ) : ℝ) := by
    exact_mod_cast h1
  linarith

/-- Half-even rounding collapses the interval `[0, 1/2)` to zero. -/
theorem roundHalfEven_eq_zero {y : ℝ} (h0 : 0 ≤ y) (h1 : y < 1 / 2) : roundHalfEven y = 0 := by
  have hfl : ⌊y⌋ = 0 := Int.floor_eq_zero_iff.mpr (Set.mem_Ico.mpr ⟨h0, by linarith⟩)
  have hfr : Int.fract y = y := by simp [Int.fract, hfl]
  unfold roundHalfEven
  rw [hfr, if_pos h1, hfl]

/-- Python `round(·, 5)` sends every value of `[0, 1/200000)` to zero. -/
theorem pyRound5_eq_zero {x : ℝ} (h0 : 0 ≤ x) (h1 : x * 100000 < 1 / 2) : pyRound5 x = 0 := by
  unfold pyRound5
  rw [roundHalfEven_eq_zero (by positivity) h1]
  simp

/-- The age in hours used by the scorer is at least `0.1`. -/
theorem hours_since_ge (now : ℚ) (c : Option ℚ) : (0.1 : ℝ) ≤ hours_since now c := by
  unfold hours_since
  cases c with
  | none => norm_num
  | some t => exact le_max_left _ _

/-- The follower-denominator `log10(followers + 10)` is at least one. -/
theorem logb_followers_ge_one (f : ℕ) : (1 : ℝ) ≤ Real.logb 10 ((f : ℝ) + 10) := by
  have h10 : (1 : ℝ) < 10 := by norm_num
  calc (1 : ℝ) = Real.logb 10 10 := (Real.logb_self_eq_one h10).symm
    _ ≤ Real.logb 10 ((f : ℝ) + 10) := by
        apply Real.logb_le_logb_of_le h10 (by norm_num)
        have : (0 : ℝ) ≤ (f : ℝ) := Nat.cast_nonneg f
        linarith

/-- The pre-rounding score is never negative. -/
theorem score_pre_nonneg (now : ℚ) (it : Item) : 0 ≤ score_pre now it := by
  unfold score_pre
  have hh := hours_since_ge now it.createdAt
  have hL := logb_followers_ge_one it.followers
  have heng : (0 : ℝ) ≤ ((raw_engagement it.metrics : ℚ) : ℝ) := by
    unfold raw_engagement
    push_cast
    positivity
  have hB : (0 : ℝ) ≤ if it.source = some "author" then 1.15 else 1 := by
    split_ifs <;> norm_num
  have hF : (0 : ℝ) ≤ Real.exp (-0.0125 * hours_since now it.createdAt) :=
    (Real.exp_pos _).le
  have hv : (0 : ℝ) ≤ ((raw_engagement it.metrics : ℚ) : ℝ) / (hours_since now it.createdAt + 2) := by
    apply div_nonneg heng; linarith
  have hr : (0 : ℝ) ≤ ((raw_engagement it.metrics : ℚ) : ℝ) / Real.logb 10 ((it.followers : ℝ) + 10) := by
    apply div_nonneg heng; linarith
  have hvir : (0 : ℝ) ≤ (it.metrics.retweet : ℝ) / ((it.metrics.like : ℝ) + 1) := by
    apply div_nonneg (Nat.cast_nonneg _); positivity
  positivity

/-- The pre-rounding score is strictly monotone in the bookmark count. -/
theorem score_pre_bookmark_lt (now : ℚ) (it : Item) (b1 b2 : ℕ) (h : b1 < b2) :
    score_pre now (withBookmark it b1) < score_pre now (withBookmark it b2) := by
  unfold score_pre withBookmark raw_engagement
  simp only
  have hh := hours_since_ge now it.createdAt
  have hL := logb_followers_ge_one it.followers
  have hF := Real.exp_pos (-0.0125 * hours_since now it.createdAt)
  have hB : (0 : ℝ) < if it.source = some "author" then 1.15 else 1 := by
    split_ifs <;> norm_num
  have hA : (0 : ℝ) < hours_since now it.createdAt + 2 := by linarith
  have hLpos : (0 : ℝ) < Real.logb 10 ((it.followers : ℝ) + 10) := by linarith
  have hE : ((10 * (b1 : ℚ) + 3 * (it.metrics.retweet : ℚ) + 2 * (it.metrics.reply : ℚ) +
      1 * (it.metrics.like : ℚ) : ℚ) : ℝ) <
      ((10 * (b2 : ℚ) + 3 * (it.metrics.retweet : ℚ) + 2 * (it.metrics.reply : ℚ) +
      1 * (it.metrics.like : ℚ) : ℚ) : ℝ) := by
    push_cast
    have : (b1 : ℝ) < (b2 : ℝ) := by exact_mod_cast h
    linarith
  apply mul_lt_mul_of_pos_right _ hB
  apply mul_lt_mul_of_pos_right _ hF
  gcongr

/-- C9 (amended): increasing the bookmark count with everything else fixed
strictly increases the pre-rounding total, but the value `rank.score`
actually returns — `round(total, 5)` — is only guaranteed to not decrease:
the final rounding can collapse the strict increase. -/
theorem C9_monotonicity_amended (now : ℚ) (it : Item) (b1 b2 : ℕ) (h : b1 < b2) :
    score_pre now (withBookmark it b1) < score_pre now (withBookmark it b2) ∧
    score_total now (withBookmark it b1) ≤ score_total now (withBookmark it b2) := by
  have hs := score_pre_bookmark_lt now it b1 b2 h
  exact ⟨hs, pyRound5_mono hs.le⟩

/-- C9 witness: the amended monotonicity at `now = 0`, the default candidate
and bookmark counts `0 < 1`. -/
theorem C9_monotonicity_amended_witness :
    0 < 1 ∧
    (score_pre 0 (withBookmark {} 0) < score_pre 0 (withBookmark {} 1) ∧
     score_total 0 (withBookmark {} 0) ≤ score_total 0 (withBookmark {} 1)) :=
  ⟨by decide, C9_monotonicity_amended 0 {} 0 1 (by decide)⟩

/-- The exponential at `25` dominates the constant of the C9 counterexample. -/
theorem exp25_big : (4500000 : ℝ) < Real.exp 25 := by
  have h2 : (2 : ℝ) < Real.exp 1 := by
    have := Real.exp_one_gt_d9
    linarith
  have hp : (2 : ℝ) ^ 25 < Real.exp 1 ^ 25 := by
    apply pow_lt_pow_left₀ h2 (by norm_num)
    norm_num
  have he : Real.exp 25 = Real.exp 1 ^ 25 := by
    rw [← Real.exp_nat_mul]
    norm_num
  rw [he]
  calc (4500000 : ℝ) < 2 ^ 25 := by norm_num
    _ < Real.exp 1 ^ 25 := hp

/-- Age of the counterexample candidate: 2000 hours. -/
theorem hours_since_at_cx : hours_since 7200000 (some 0) = 2000 := by
  have h0 : hours_since 7200000 (some 0) = max 0.1 (((7200000 - 0 : ℚ) : ℝ) / 3600) := rfl
  rw [h0, max_eq_right (by push_cast; norm_num)]
  push_cast
  norm_num

/-- The counterexample candidate with zero bookmarks scores exactly `0`. -/
theorem score_total_zero_zero :
    score_total 7200000 (withBookmark ({createdAt := some 0} : Item) 0) = 0 := by
  unfold score_total
  apply pyRound5_eq_zero (score_pre_nonneg _ _)
  simp only [score_pre, withBookmark, raw_engagement]
  rw [hours_since_at_cx]
  norm_num

/-- The counterexample candidate with one bookmark also scores exactly `0`:
its pre-rounding total `(25/2002 + 20)·exp(-25)` is positive but far below
the rounding granularity. -/
theorem score_total_zero_one :
    score_total 7200000 (withBookmark ({createdAt := some 0} : Item) 1) = 0 := by
  unfold score_total
  apply pyRound5_eq_zero (score_pre_nonneg _ _)
  simp only [score_pre, withBookmark, raw_engagement]
  rw [hours_since_at_cx]
  norm_num
  rw [if_neg (by simp : ¬ ((none : Option String) = some "author"))]
  rw [Real.exp_neg]
  have hEpos := Real.exp_pos (25 : ℝ)
  rw [show ((40065 / 2002 : ℝ) * (Real.exp 25)⁻¹ * 100000)
      = (40065 / 2002 * 100000) / Real.exp 25 by ring]
  rw [div_lt_iff₀ hEpos]
  nlinarith [exp25_big]

/-- C9 (counterexample): a 2000-hour-old candidate with no followers and no
other engagement scores `0.0` both with zero bookmarks and with one
bookmark — the bookmark count strictly increases yet the returned total
does not. -/
theorem C9_monotonicity_counterexample :
    (withBookmark ({createdAt := some 0} : Item) 0).metrics.bookmark <
      (withBookmark ({createdAt := some 0} : Item) 1).metrics.bookmark ∧
    ¬ score_total 7200000 (withBookmark ({createdAt := some 0} : Item) 0) <
        score_total 7200000 (withBookmark ({createdAt := some 0} : Item) 1) := by
  refine ⟨by decide, ?_⟩
  rw [score_total_zero_zero, score_total_zero_one]
  exact lt_irrefl 0

end XTrend

